import Mathlib

/-!
# Verification of the MTG MCP server's aggregation and caching core

This file gives a shallow embedding, in Lean 4, of the pure computational
content of the `mtg-mcp` repository (files `mtg_mcp/utils.py` and
`mtg_mcp/tools/{combos,ruling,archidekt,moxfield,commander}.py`), and proves
or refutes the frozen specification claims about it.

Modelling conventions:
* Upstream HTTP traffic is modelled by explicit oracles: a function from the
  request (URL or page index) to the response the server would give.  A
  response that the Python code would receive as a raised exception
  (connection error, timeout, malformed body) is modelled as `Except.error`.
* JSON decoding of upstream bodies (the `dict.get(..., default)` projections
  applied immediately when a response is read) is the embedding boundary:
  responses arrive as already-structured Lean records whose fields carry the
  defaults the source applies.  Fields that the source merely copies through
  unread are elided where noted in the individual doc comments.
* Python `dict`s whose insertion order is observable are modelled as
  association lists with overwrite-in-place semantics (`dictInsert` below),
  which is exactly CPython's behaviour: assigning to an existing key keeps
  its position, assigning a fresh key appends.
* Wall-clock time (`time.time()`, seconds as a float) is modelled as `ℚ`;
  `asyncio.sleep` is modelled as exact, so a call that sleeps `s` seconds
  re-reads the clock at `t + s`.
* Effects (rate-limiter acquisitions and HTTP fetches) are logged in order
  in a `List Effect` so that "no upstream I/O happened" is `trace = []`.
-/

/-- One observable effect of running a tool: a rate-limiter acquisition for a
named API, or an HTTP GET of a URL. -/
inductive Effect where
  | rateLimit (api : String)
  | httpGet (url : String)
deriving DecidableEq, Repr

/-- `containsSubAux pat s = true` iff `pat` occurs as a contiguous run inside
`s`.  Helper for Python's `needle in haystack` on strings. -/
def containsSubAux (pat : List Char) : List Char → Bool
  | [] => pat.isEmpty
  | c :: rest => pat.isPrefixOf (c :: rest) || containsSubAux pat rest

/-- Python's `pat in s` substring test on strings. -/
def strContains (s pat : String) : Bool :=
  containsSubAux pat.toList s.toList

/-- An apostrophe character, used to build string literals that contain one. -/
def apos : String := String.mk [Char.ofNat 39]

/-- Python-`dict` assignment `d[k] = v` on an insertion-ordered association
list: overwrite in place if the key exists, else append. -/
def dictInsert (d : List (String × String)) (k v : String) : List (String × String) :=
  match d with
  | [] => [(k, v)]
  | (k', v') :: rest => if k' == k then (k, v) :: rest else (k', v') :: dictInsert rest k v

/-- Python-`dict` assignment for `String → Nat` maps. -/
def dictSetNat (d : List (String × Nat)) (k : String) (v : Nat) : List (String × Nat) :=
  match d with
  | [] => [(k, v)]
  | (k', v') :: rest => if k' == k then (k, v) :: rest else (k', v') :: dictSetNat rest k v

/-- Python's `d.get(k, 0)` on a `String → Nat` association list. -/
def lookupNat (d : List (String × Nat)) (k : String) : Nat :=
  match d.find? (fun p => p.1 == k) with
  | some p => p.2
  | none => 0

/-! ## 1. Rate limiter (`mtg_mcp/utils.py`, `rate_limit_api_call`)

The mutable module-level dict `_last_api_call_time` is modelled as an
association list from API name to the last stamped `time.time()` value, with
lookup default `0` (the initial dict maps the three known APIs to `0.0`, and
`.get(api_name, 0)` defaults any other name to `0`, so a single default-`0`
lookup covers both). -/

/-- The rate limiter's mutable state: API name ↦ last stamped clock value
(seconds since epoch, as `ℚ`). -/
abbrev RateState := List (String × ℚ)

/-- `_last_api_call_time.get(api_name, 0)`. -/
def lookupLast (st : RateState) (api : String) : ℚ :=
  match st.find? (fun p => p.1 == api) with
  | some p => p.2
  | none => 0

/-- `_last_api_call_time[api_name] = t`. -/
def stampTime (st : RateState) (api : String) (t : ℚ) : RateState :=
  match st with
  | [] => [(api, t)]
  | p :: rest => if p.1 == api then (api, t) :: rest else p :: stampTime rest api t

/-- `_api_rate_limit_ms = 100`. -/
def api_rate_limit_ms : ℚ := 100

/-- Embedding of `rate_limit_api_call(api_name)`.  `t` is the `time.time()`
read at entry; the result is the clock value at which the function returns
(equal to the value it stamps, under the exact-sleep model) paired with the
updated state.  The source computes the elapsed time in milliseconds against
the stored stamp, sleeps for the remaining fraction of 100ms if the elapsed
time is below 100ms, then unconditionally re-stamps the current time. -/
def rate_limit_api_call (st : RateState) (api : String) (t : ℚ) : ℚ × RateState :=
  let time_since_last_call : ℚ := (t - lookupLast st api) * 1000
  let ret : ℚ :=
    if time_since_last_call < api_rate_limit_ms then
      t + (api_rate_limit_ms - time_since_last_call) / 1000
    else t
  (ret, stampTime st api ret)

/-! ## 2. Cache layer (`mtg_mcp/utils.py`, `get_rules` / `get_banned_cards` /
`get_game_changers`)

Each cache is a module-level variable starting at `None`; the getter fetches
exactly when the variable is `None` and stores whatever the fetch returned
(success or error payload alike — the fetchers never return `None`).  We model
each getter as a state transition `Option payload → payload → payload ×
Option payload × Nat`, where the second argument is the value the underlying
fetch would produce if it were invoked on this call, and the `Nat` counts how
many times the fetch actually ran (0 or 1). -/

/-- Runs a sequence of sequential calls of a cache getter `step`, threading the
cache and feeding each call the value its fetch would produce; returns the
list of returned values, the final cache, and the total number of fetches. -/
def runCachedCalls (step : Option α → α → α × Option α × Nat) :
    Option α → List α → List α × Option α × Nat
  | cache, [] => ([], cache, 0)
  | cache, f :: fs =>
    let r := step cache f
    let rest := runCachedCalls step r.2.1 fs
    (r.1 :: rest.1, rest.2.1, r.2.2 + rest.2.2)

/-! ## 3. Rules-text client (`mtg_mcp/utils.py`, `fetch_and_parse_rules`)

The parser walks the fetched text line by line; a line whose `strip()` starts
with one of `"0."` … `"9."` opens a new section keyed by the stripped line;
lines seen before the first such marker are dropped; each section's stored
text is its (unstripped) marker line joined with the following lines up to the
next marker. -/

/-- `tuple(str(i) + '.' for i in range(10))`. -/
def sectionPrefixes : List String :=
  (List.range 10).map (fun i => toString i ++ ".")

/-- `line.strip().startswith(tuple(str(i) + '.' for i in range(10)))`. -/
def isSectionMarker (line : String) : Bool :=
  sectionPrefixes.any (fun p => p.toList.isPrefixOf line.trim.toList)

/-- Flush the pending section into the dict: `if current_section and
current_text: sections[current_section] = '\n'.join(current_text)` (Python
truthiness: a `None` or empty-string section, or an empty line list, flushes
nothing). -/
def flushSection (curSec : Option String) (curText : List String)
    (sections : List (String × String)) : List (String × String) :=
  match curSec with
  | none => sections
  | some sec =>
    if sec = "" ∨ curText = [] then sections
    else dictInsert sections sec (String.intercalate "\n" curText)

/-- The `for line in text.split('\n')` loop of `fetch_and_parse_rules`,
with the trailing flush of the last section. -/
def parseRulesLoop : List String → Option String → List String →
    List (String × String) → List (String × String)
  | [], curSec, curText, sections => flushSection curSec curText sections
  | line :: rest, curSec, curText, sections =>
    if isSectionMarker line then
      parseRulesLoop rest (some line.trim) [line] (flushSection curSec curText sections)
    else
      match curSec with
      | some _ => parseRulesLoop rest curSec (curText ++ [line]) sections
      | none => parseRulesLoop rest none curText sections

/-- The section-splitting step of `fetch_and_parse_rules`, as a function of
the fetched text. -/
def parseRulesSections (text : String) : List (String × String) :=
  parseRulesLoop (text.splitOn "\n") none [] []

/-- Result dictionary of `fetch_and_parse_rules`: the success dict
`{"last_updated": ..., "sections": ...}` or the caught-exception dict
`{"error": "Could not fetch current rules", "last_updated": ...}`. -/
inductive RulesResult where
  | ok (last_updated : String) (sections : List (String × String))
  | fetchError (last_updated : String)
deriving DecidableEq, Repr

/-- One response of the rules-URL GET: the HTTP status and the body text. -/
structure RulesResponse where
  status : Nat
  body : String
deriving DecidableEq, Repr

/-- `fetch_and_parse_rules()`.  The oracle is the response of the GET of the
rules URL, or `Except.error` if the transport raises.  Note the source never
inspects `response.status`: it goes straight to `await response.text()` and
parses whatever body arrived (aiohttp does not raise on non-2xx), so the
`status` field of a delivered response is ignored here exactly as in the
code, and a 404 or 500 body is parsed and returned as a success-shaped
dictionary. -/
def fetch_and_parse_rules (resp : Except String RulesResponse) : RulesResult :=
  match resp with
  | .error _ => .fetchError "2025-09-19"
  | .ok r => .ok "2025-09-19" (parseRulesSections r.body)

/-- `get_rules()`: fetch-once memoization of `fetch_and_parse_rules` (see the
cache-layer comment above). -/
def get_rules (cache : Option RulesResult) (fetched : RulesResult) :
    RulesResult × Option RulesResult × Nat :=
  match cache with
  | some v => (v, some v, 0)
  | none => (fetched, some fetched, 1)

/-! ### Spec-side restatement of the parser, for the refinement proof of C6

`specParseSections` is written from the specification's words: drop every
line before the first marker; then chunk the remainder so that each chunk is
one marker line plus the run of non-marker lines after it; key each chunk by
its marker line's stripped content and store the chunk's lines joined by
newlines. -/

/-- Chunk a line list (assumed to begin with a marker line, when nonempty)
into marker-headed groups. -/
def sectionChunks : List String → List (List String)
  | [] => []
  | l :: rest =>
    (l :: rest.takeWhile (fun x => !isSectionMarker x)) ::
      sectionChunks (rest.dropWhile (fun x => !isSectionMarker x))
termination_by ls => ls.length
decreasing_by
  simp only [List.length_cons]
  exact Nat.lt_succ_of_le (List.dropWhile_sublist _).length_le

/-- Store one chunk into the section dict, keyed by its (stripped) marker
line. -/
def chunkStep (d : List (String × String)) (c : List String) : List (String × String) :=
  match c with
  | [] => d
  | h :: _ => dictInsert d h.trim (String.intercalate "\n" c)

/-- Modelled from the spec: "splits it into sections keyed by the string each
line starts with when that line begins with a digit followed by a period —
lines before the first such marker are discarded; each section's text is the
concatenation of its marker line and all following lines up to (not
including) the next marker line". -/
def specParseSections (text : String) : List (String × String) :=
  (sectionChunks ((text.splitOn "\n").dropWhile (fun l => !isSectionMarker l))).foldl chunkStep []

/-! ## 4. Ban-list client (`mtg_mcp/utils.py`, `fetch_banned_cards`)

The function follows the `next_page` link of each response until a response
carries none, rate-limiting before every page fetch (including the first),
accumulating the projected card records of all pages, and finally sorting the
accumulated list by card name (Python's stable `list.sort` with a name key;
`List.mergeSort` is likewise stable, so the embeddings agree).

The per-card dict built from each raw card (seven `card.get(...)`
projections with defaults) is the JSON-decode boundary: pages arrive already
holding `BCard` records. The Python `while` loop has no a-priori bound, so
the embedding takes a fuel parameter and returns `none` when fuel runs out
(partial correctness of a possibly diverging loop). -/

/-- The per-card record `fetch_banned_cards` builds for each banned card. -/
structure BCard where
  name : String
  type_line : String
  mana_cost : String
  cmc : ℚ
  color_identity : List String
  oracle_text : String
  scryfall_uri : String
deriving DecidableEq, Repr

/-- One decoded response of the Scryfall paginated search. -/
structure BannedPage where
  status : Nat
  data : List BCard
  next_page : Option String
deriving DecidableEq, Repr

/-- Result dictionary of `fetch_banned_cards`: the success dict (of which we
keep the `banned_cards` name list, the `banned_cards_with_details` list and
`total_banned`; the remaining fields are fixed strings), the non-200 status
dict, or the caught-exception dict. -/
inductive BannedOutcome where
  | ok (banned_cards : List String) (banned_cards_with_details : List BCard) (total_banned : Nat)
  | statusError (status : Nat)
  | exceptionError (details : String)
deriving DecidableEq, Repr

/-- Code-point lexicographic comparison of character lists: exactly Python's
string ordering (and equivalent to Lean's `String` order, see
`lexLe_iff_not_lex` below); written as a structural recursion so that
concrete runs evaluate. -/
def lexLe : List Char → List Char → Bool
  | [], _ => true
  | _ :: _, [] => false
  | a :: as, b :: bs => if a < b then true else if b < a then false else lexLe as bs

/-- `banned_cards.sort(key=lambda x: x.get("name", ""))`'s comparison. -/
def bcardLe (a b : BCard) : Bool := lexLe a.name.toList b.name.toList

/-- The initial search URL of `fetch_banned_cards`. -/
def bannedSearchUrl : String :=
  "https://api.scryfall.com/cards/search?q=banned:commander&unique=cards&order=name"

/-- The `while next_page:` loop of `fetch_banned_cards`.  `pages` maps each
requested URL to its response (or a raised transport error); `url` is the
next URL to fetch; `acc` the accumulated card records; `tr` the effect trace
so far. -/
def fetchBannedLoop (pages : String → Except String BannedPage) :
    Nat → String → List BCard → List Effect → Option (BannedOutcome × List Effect)
  | 0, _, _, _ => none
  | fuel + 1, url, acc, tr =>
    let tr' := tr ++ [Effect.rateLimit "scryfall", Effect.httpGet url]
    match pages url with
    | .error e => some (.exceptionError e, tr')
    | .ok page =>
      if page.status ≠ 200 then some (.statusError page.status, tr')
      else
        let acc' := acc ++ page.data
        match page.next_page with
        | some nxt => fetchBannedLoop pages fuel nxt acc' tr'
        | none =>
          let sorted := acc'.mergeSort bcardLe
          some (.ok (sorted.map BCard.name) sorted (sorted.map BCard.name).length, tr')

/-- `fetch_banned_cards()`. -/
def fetch_banned_cards (pages : String → Except String BannedPage) (fuel : Nat) :
    Option (BannedOutcome × List Effect) :=
  fetchBannedLoop pages fuel bannedSearchUrl [] []

/-- `get_banned_cards()`: fetch-once memoization of `fetch_banned_cards`. -/
def get_banned_cards (cache : Option BannedOutcome) (fetched : BannedOutcome) :
    BannedOutcome × Option BannedOutcome × Nat :=
  match cache with
  | some v => (v, some v, 0)
  | none => (fetched, some fetched, 1)

/-- The chain of pages the server supplies starting at `url`: every fetched
page answers with status 200, each page's `next_page` leads to the next one,
the final page has no `next_page`, `urls` lists the fetched URLs in order and
`cards` the concatenated card data of all pages. -/
inductive FollowsChain (pages : String → Except String BannedPage) :
    String → List String → List BCard → Prop
  | last {url page} : pages url = .ok page → page.status = 200 →
      page.next_page = none → FollowsChain pages url [url] page.data
  | step {url nxt page urls rest} : pages url = .ok page → page.status = 200 →
      page.next_page = some nxt → FollowsChain pages nxt urls rest →
      FollowsChain pages url (url :: urls) (page.data ++ rest)

/-! ## 5. Combo client (`mtg_mcp/tools/combos.py`, `search_combos`)

The variant records returned by Commander Spellbook are passed through
uninterpreted by the source, so they are modelled as opaque strings. -/

/-- One decoded response of the Commander Spellbook variant search;
`results` is `data.get("results", [])`. -/
structure CombosResponse where
  status : Nat
  results : List String
deriving DecidableEq, Repr

/-- Result dictionary of `search_combos`. -/
inductive CombosResult where
  | ok (card_name : String) (total_combos : Nat) (combos : List String) (api_url : String)
  | statusError (card_name : String) (status : Nat)
  | exceptionError (card_name : String) (details : String)
deriving DecidableEq, Repr

/-- The request URL of `search_combos`: the 5-variant cap is requested from
the server via the `limit=5` query parameter. -/
def combosApiUrl (card_name : String) : String :=
  "https://backend.commanderspellbook.com/variants/?q=card:" ++ card_name ++
    "+legal:commander&limit=5"

/-- `search_combos(card_name)`. -/
def search_combos (env : Except String CombosResponse) (card_name : String) :
    CombosResult × List Effect :=
  let tr := [Effect.rateLimit "commanderspellbook", Effect.httpGet (combosApiUrl card_name)]
  match env with
  | .error e => (.exceptionError card_name e, tr)
  | .ok resp =>
    if resp.status ≠ 200 then (.statusError card_name resp.status, tr)
    else (.ok card_name resp.results.length resp.results (combosApiUrl card_name), tr)

/-! ## 6. Rulings client (`mtg_mcp/tools/ruling.py`, `search_rulings`)

Two chained Scryfall calls, each preceded by a rate-limiter acquisition: a
fuzzy name lookup, then a rulings fetch by the resolved card id.  Ruling
records are passed through uninterpreted (opaque strings). -/

/-- Decoded response of the fuzzy name lookup inside `search_rulings`:
`id` and `name` are `card_data.get(...)` without defaults (absent keys give
`None`); `type_line` and `oracle_text` default to `""`. -/
structure NamedCardResponse where
  status : Nat
  id : Option String
  name : Option String
  type_line : String
  oracle_text : String
deriving DecidableEq, Repr

/-- Decoded response of the rulings fetch; `data` is
`rulings_data.get("data", [])`. -/
structure RulingsResponse where
  status : Nat
  data : List String
deriving DecidableEq, Repr

/-- Result dictionary of `search_rulings`.  `cardNotFound` is the non-200
first call; `noCardId` the missing-`id` branch; `rulingsError` the non-200
second call (whose dict reports the resolved `exact_name`, possibly `None`). -/
inductive RulingsResult where
  | ok (card_name : Option String) (type_line oracle_text : String)
      (total_rulings : Nat) (rulings : List String)
  | cardNotFound (card_name : String) (status : Nat)
  | noCardId (card_name : String)
  | rulingsError (card_name : Option String) (status : Nat)
  | exceptionError (card_name : String) (details : String)
deriving DecidableEq, Repr

/-- The fuzzy-lookup URL of `search_rulings`. -/
def rulingsSearchUrl (card_name : String) : String :=
  "https://api.scryfall.com/cards/named?fuzzy=" ++ card_name

/-- The rulings URL of `search_rulings`. -/
def rulingsUrl (card_id : String) : String :=
  "https://api.scryfall.com/cards/" ++ card_id ++ "/rulings"

/-- `search_rulings(card_name)`.  `env1` answers the fuzzy name lookup,
`env2` answers the rulings fetch for a given card id. -/
def search_rulings (env1 : Except String NamedCardResponse)
    (env2 : String → Except String RulingsResponse) (card_name : String) :
    RulingsResult × List Effect :=
  let tr1 := [Effect.rateLimit "scryfall", Effect.httpGet (rulingsSearchUrl card_name)]
  match env1 with
  | .error e => (.exceptionError card_name e, tr1)
  | .ok card =>
    if card.status ≠ 200 then (.cardNotFound card_name card.status, tr1)
    else
      match card.id with
      | none => (.noCardId card_name, tr1)
      | some cid =>
        let tr2 := tr1 ++ [Effect.rateLimit "scryfall", Effect.httpGet (rulingsUrl cid)]
        match env2 cid with
        | .error e => (.exceptionError card_name e, tr2)
        | .ok rresp =>
          if rresp.status ≠ 200 then (.rulingsError card.name rresp.status, tr2)
          else (.ok card.name card.type_line card.oracle_text rresp.data.length rresp.data, tr2)

/-! ## 7. Game-changer dataset builder (`mtg_mcp/utils.py`, `fetch_game_changers`)

A single EDHREC fetch (not rate limited), name de-duplication (first
occurrence wins, empty names skipped by Python truthiness), then one
rate-limited Scryfall enrichment per entry whose failure — transport error or
non-200 alike — is swallowed, leaving the entry unenriched; the final list is
sorted descending by `num_decks` (stable, like Python's
`sort(key=..., reverse=True)`). -/

/-- One `cardviews` entry of the EDHREC game-changers JSON, after the
`card.get(...)` default projections. -/
structure GCView where
  name : String
  num_decks : Nat
  label : String
  sanitized : String
deriving DecidableEq, Repr

/-- Decoded response of the EDHREC game-changers fetch; `cardlists` is the
list of card lists, each carrying its `cardviews`. -/
structure GCResponse where
  status : Nat
  cardlists : List (List GCView)
deriving DecidableEq, Repr

/-- The Scryfall fields merged into an entry by a successful enrichment
(the nested `prices` sub-dict is carried as its four optional components). -/
structure GCEnrich where
  type_line : String
  mana_cost : String
  colors : List String
  color_identity : List String
  oracle_text : String
  scryfall_uri : String
  usd : Option String
  usd_foil : Option String
  eur : Option String
  tix : Option String
deriving DecidableEq, Repr

/-- Decoded response of one Scryfall enrichment lookup. -/
structure GCScryResponse where
  status : Nat
  enrich : GCEnrich
deriving DecidableEq, Repr

/-- One game-changer entry: the EDHREC fields plus, after a successful
enrichment, the merged Scryfall fields. -/
structure GCCard where
  view : GCView
  enriched : Option GCEnrich
deriving DecidableEq, Repr

/-- Result dictionary of `fetch_game_changers` (of the success dict we keep
`cards`, `cards_with_details` and `total_cards`; the rest are fixed
strings). -/
inductive GCResult where
  | ok (cards : List String) (cards_with_details : List GCCard) (total_cards : Nat)
  | statusError (status : Nat)
  | exceptionError (details : String)
deriving DecidableEq, Repr

/-- The dedup loop: `if card_name and card_name not in seen` (empty names are
falsy and skipped), first occurrence wins, order preserved. -/
def gcDedup : List GCView → List String → List GCView
  | [], _ => []
  | v :: rest, seen =>
    if v.name ≠ "" ∧ v.name ∉ seen then v :: gcDedup rest (v.name :: seen)
    else gcDedup rest seen

/-- The per-entry enrichment: rate-limited Scryfall lookup whose transport
failure is swallowed (`except` keeps the entry and continues) and whose
non-200 response also leaves the entry unenriched. -/
def gcEnrichOne (scry : String → Except String GCScryResponse) (v : GCView) : GCCard :=
  match scry v.name with
  | .error _ => { view := v, enriched := none }
  | .ok resp =>
    if resp.status = 200 then { view := v, enriched := some resp.enrich }
    else { view := v, enriched := none }

/-- `game_changers.sort(key=lambda x: x.get("num_decks", 0), reverse=True)`'s
comparison (descending, stable). -/
def gcDescLe (a b : GCCard) : Bool := b.view.num_decks ≤ a.view.num_decks

/-- `fetch_game_changers()`.  `env` answers the EDHREC fetch; `scry` answers
the per-name Scryfall enrichment lookups. -/
def fetch_game_changers (env : Except String GCResponse)
    (scry : String → Except String GCScryResponse) :
    GCResult × List Effect :=
  let gcUrl := "https://json.edhrec.com/pages/top/game-changers.json"
  match env with
  | .error e => (.exceptionError e, [Effect.httpGet gcUrl])
  | .ok resp =>
    if resp.status ≠ 200 then (.statusError resp.status, [Effect.httpGet gcUrl])
    else
      let game_changers := gcDedup resp.cardlists.flatten []
      let enriched := game_changers.map (gcEnrichOne scry)
      let sorted := enriched.mergeSort gcDescLe
      let card_names := sorted.map (fun gc => gc.view.name)
      (.ok card_names sorted card_names.length,
        Effect.httpGet gcUrl ::
          game_changers.flatMap (fun v =>
            [Effect.rateLimit "scryfall",
             Effect.httpGet ("https://api.scryfall.com/cards/named?exact=" ++ v.name)]))

/-- `get_game_changers()`: fetch-once memoization of `fetch_game_changers`. -/
def get_game_changers (cache : Option GCResult) (fetched : GCResult) :
    GCResult × Option GCResult × Nat :=
  match cache with
  | some v => (v, some v, 0)
  | none => (fetched, some fetched, 1)

/-! ## 8. Deck-import client: Archidekt (`mtg_mcp/tools/archidekt.py`)

`re.search(r'https?://(?:www\.)?archidekt\.com/decks/(\d+)', deck_url)` is
embedded character by character: at each start position the matcher tries the
literal `http`, the optional `s` (greedy, with backtracking), the literal
`://`, the optional `www.` (greedy, with backtracking), the literal host path
and then a maximal nonempty digit run (the capture group);
`re.search` takes the leftmost position at which this succeeds. -/

/-- Consume a literal prefix, returning the remainder. -/
def dropLit (pat : String) (s : List Char) : Option (List Char) :=
  if pat.toList.isPrefixOf s then some (s.drop pat.toList.length) else none

/-- Try to match `archidekt\.com/decks/(\d+)` here. -/
def archTail (s : List Char) : Option String :=
  match dropLit "archidekt.com/decks/" s with
  | none => none
  | some s5 =>
    let digits := s5.takeWhile Char.isDigit
    if digits.isEmpty then none else some (String.mk digits)

/-- Try to match the full Archidekt pattern at this position. -/
def matchArchidektAt (s : List Char) : Option String :=
  match dropLit "http" s with
  | none => none
  | some s1 =>
    let afterScheme (s2 : List Char) : Option String :=
      match dropLit "://" s2 with
      | none => none
      | some s3 =>
        match dropLit "www." s3 with
        | some s4 => (archTail s4).orElse (fun _ => archTail s3)
        | none => archTail s3
    match dropLit "s" s1 with
    | some s2 => (afterScheme s2).orElse (fun _ => afterScheme s1)
    | none => afterScheme s1

/-- `re.search`: try each start position left to right. -/
def searchArchidekt : List Char → Option String
  | [] => none
  | c :: rest => (matchArchidektAt (c :: rest)).orElse (fun _ => searchArchidekt rest)

/-- The deck id `fetch_archidekt_deck` extracts from a deck URL, or `none`
when the URL does not match the pattern. -/
def archidektDeckId (deck_url : String) : Option String :=
  searchArchidekt deck_url.toList

/-- One processed Archidekt card entry (`card_info` in the source), restricted
to the fields the subsequent category/commander/total computation reads:
`quantity` (`card_entry.get("quantity", 1)`), the resolved `name` and the
category name list.  The remaining `card_info` fields are copied verbatim
from the response and are elided at the decode boundary. -/
structure ArchEntry where
  quantity : Nat
  name : String
  categories : List String
deriving DecidableEq, Repr

/-- Decoded response of the Archidekt deck API (deck metadata other than the
name elided). -/
structure ArchResponse where
  status : Nat
  deck_name : String
  cards : List ArchEntry
deriving DecidableEq, Repr

/-- A raised transport error: aiohttp's `ClientError` or any other
exception (the source catches the two separately). -/
inductive TransportError where
  | clientError (details : String)
  | otherError (details : String)
deriving DecidableEq, Repr

/-- Result dictionary of `fetch_archidekt_deck` (of the success dict we keep
the deck name, the commander name list, the card entries, the per-category
quantity counts and `total_cards`). -/
inductive ArchResult where
  | invalidUrl
  | notFound (deck_id : String)
  | statusError (status : Nat) (deck_id : String)
  | ok (deck_name : String) (commanders : List String) (cards : List ArchEntry)
      (category_counts : List (String × Nat)) (total_cards : Nat)
  | networkError (details : String)
  | unexpectedError (details : String)
deriving DecidableEq, Repr

/-- The per-card category-count / commander fold of `fetch_archidekt_deck`:
each category of each card accumulates the card's quantity, and a card any of
whose categories equals `"commander"` case-insensitively is a commander. -/
def archCountCategories (cats : List String) (q : Nat) (counts : List (String × Nat)) :
    List (String × Nat) :=
  cats.foldl (fun acc cat => dictSetNat acc cat (lookupNat acc cat + q)) counts

/-- `cat.lower() == "commander"` for some category of the card. -/
def archIsCommander (cats : List String) : Bool :=
  cats.any (fun cat => cat.toLower == "commander")

/-- The card-processing loop of `fetch_archidekt_deck`: accumulates the
category counts and appends commanders in card order. -/
def archProcessCards : List ArchEntry → List (String × Nat) → List String →
    List (String × Nat) × List String
  | [], counts, commanders => (counts, commanders)
  | card :: rest, counts, commanders =>
    archProcessCards rest
      (archCountCategories card.categories card.quantity counts)
      (if archIsCommander card.categories then commanders ++ [card.name] else commanders)

/-- The Archidekt API URL built from the extracted deck id. -/
def archApiUrl (deck_id : String) : String :=
  "https://archidekt.com/api/decks/" ++ deck_id ++ "/"

/-- `fetch_archidekt_deck(deck_url)`.  `env` answers the deck API GET. -/
def fetch_archidekt_deck (env : String → Except TransportError ArchResponse)
    (deck_url : String) : ArchResult × List Effect :=
  match archidektDeckId deck_url with
  | none => (.invalidUrl, [])
  | some deck_id =>
    let api_url := archApiUrl deck_id
    let tr := [Effect.rateLimit "archidekt", Effect.httpGet api_url]
    match env api_url with
    | .error (.clientError e) => (.networkError e, tr)
    | .error (.otherError e) => (.unexpectedError e, tr)
    | .ok resp =>
      if resp.status = 404 then (.notFound deck_id, tr)
      else if resp.status ≠ 200 then (.statusError resp.status deck_id, tr)
      else
        let pc := archProcessCards resp.cards [] []
        let total_cards := (resp.cards.map ArchEntry.quantity).sum
        (.ok resp.deck_name pc.2 resp.cards pc.1 total_cards, tr)

/-! ## 9. Deck-import client: Moxfield (`mtg_mcp/tools/moxfield.py`)

Same shape as the Archidekt client with the Moxfield URL pattern
(`moxfield.com/decks/` followed by one or more characters from
`[a-zA-Z0-9_-]`).  The response groups cards into named boards server-side;
the board named `"commanders"` is authoritative for the commander list;
`total_cards` sums the mainboard, sideboard and commanders board counts. -/

/-- A deck-id character of the Moxfield URL pattern: `[a-zA-Z0-9_-]`. -/
def moxIdChar (c : Char) : Bool :=
  c.isAlpha || c.isDigit || c == '_' || c == '-'

/-- Try to match `moxfield\.com/decks/([a-zA-Z0-9_-]+)` here. -/
def moxTail (s : List Char) : Option String :=
  match dropLit "moxfield.com/decks/" s with
  | none => none
  | some s5 =>
    let idChars := s5.takeWhile moxIdChar
    if idChars.isEmpty then none else some (String.mk idChars)

/-- Try to match the full Moxfield pattern at this position. -/
def matchMoxfieldAt (s : List Char) : Option String :=
  match dropLit "http" s with
  | none => none
  | some s1 =>
    let afterScheme (s2 : List Char) : Option String :=
      match dropLit "://" s2 with
      | none => none
      | some s3 =>
        match dropLit "www." s3 with
        | some s4 => (moxTail s4).orElse (fun _ => moxTail s3)
        | none => moxTail s3
    match dropLit "s" s1 with
    | some s2 => (afterScheme s2).orElse (fun _ => afterScheme s1)
    | none => afterScheme s1

/-- `re.search` for the Moxfield pattern: leftmost matching position. -/
def searchMoxfield : List Char → Option String
  | [] => none
  | c :: rest => (matchMoxfieldAt (c :: rest)).orElse (fun _ => searchMoxfield rest)

/-- The deck id `fetch_moxfield_deck` extracts from a deck URL, or `none`
when the URL does not match the pattern. -/
def moxfieldDeckId (deck_url : String) : Option String :=
  searchMoxfield deck_url.toList

/-- One Moxfield card entry (`card_entry` joined with its nested `card`
data), restricted to the fields the processing reads for counts and
identity: `quantity` (`card_entry.get("quantity", 1)`) and the card `name`
(`card_data.get("name", "Unknown")`); purely-copied display fields are
elided at the decode boundary. -/
structure MoxEntry where
  quantity : Nat
  name : String
deriving DecidableEq, Repr

/-- One board of the Moxfield response: its `count` field and the values of
its `cards` dict in iteration order. -/
structure MoxBoard where
  count : Nat
  cards : List MoxEntry
deriving DecidableEq, Repr

/-- Decoded response of the Moxfield deck API: `boards` in dict iteration
order (deck metadata other than the name elided). -/
structure MoxResponse where
  status : Nat
  deck_name : String
  boards : List (String × MoxBoard)
deriving DecidableEq, Repr

/-- Result dictionary of `fetch_moxfield_deck` (of the success dict we keep
the deck name, the commander name list, the per-board-labelled card entries,
`board_counts` and the five count fields). -/
inductive MoxResult where
  | invalidUrl
  | notFound (deck_id : String)
  | statusError (status : Nat) (deck_id : String)
  | ok (deck_name : String) (commanders : List String) (cards : List (String × MoxEntry))
      (board_counts : List (String × Nat))
      (mainboard_count sideboard_count maybeboard_count commanders_count total_cards : Nat)
  | networkError (details : String)
  | unexpectedError (details : String)
deriving DecidableEq, Repr

/-- The commander-extraction block: `data.get("boards", {}).get("commanders",
{})`, guarded by Python truthiness of the board and `count > 0`; each entry
yields a commander record (kept as its name). -/
def moxCommanders (boards : List (String × MoxBoard)) : List String :=
  match boards.find? (fun p => p.1 == "commanders") with
  | none => []
  | some p => if p.2.count > 0 then p.2.cards.map MoxEntry.name else []

/-- The all-boards card loop: every entry of every board is appended, tagged
with its board name (an empty `cards` dict is skipped by `continue`, which
appends nothing either way). -/
def moxAllCards : List (String × MoxBoard) → List (String × MoxEntry)
  | [] => []
  | (bn, bd) :: rest => bd.cards.map (fun e => (bn, e)) ++ moxAllCards rest

/-- The `board_counts[board_name] = board_count` loop. -/
def moxBoardCounts (boards : List (String × MoxBoard)) : List (String × Nat) :=
  boards.foldl (fun d p => dictSetNat d p.1 p.2.count) []

/-- The Moxfield API URL built from the extracted deck id. -/
def moxApiUrl (deck_id : String) : String :=
  "https://api2.moxfield.com/v3/decks/all/" ++ deck_id

/-- `fetch_moxfield_deck(deck_url)`.  `env` answers the deck API GET. -/
def fetch_moxfield_deck (env : String → Except TransportError MoxResponse)
    (deck_url : String) : MoxResult × List Effect :=
  match moxfieldDeckId deck_url with
  | none => (.invalidUrl, [])
  | some deck_id =>
    let api_url := moxApiUrl deck_id
    let tr := [Effect.rateLimit "moxfield", Effect.httpGet api_url]
    match env api_url with
    | .error (.clientError e) => (.networkError e, tr)
    | .error (.otherError e) => (.unexpectedError e, tr)
    | .ok resp =>
      if resp.status = 404 then (.notFound deck_id, tr)
      else if resp.status ≠ 200 then (.statusError resp.status deck_id, tr)
      else
        let board_counts := moxBoardCounts resp.boards
        let mainboard_count := lookupNat board_counts "mainboard"
        let sideboard_count := lookupNat board_counts "sideboard"
        let maybeboard_count := lookupNat board_counts "maybeboard"
        let commanders_count := lookupNat board_counts "commanders"
        let total_cards := mainboard_count + sideboard_count + commanders_count
        (.ok resp.deck_name (moxCommanders resp.boards) (moxAllCards resp.boards)
          board_counts mainboard_count sideboard_count maybeboard_count
          commanders_count total_cards, tr)

/-! ## 10. Commander-deck validator and data gatherer
(`mtg_mcp/tools/commander.py`, `generate_commander_deck_data`)

Argument validation (bracket range, commander count) happens before any
upstream traffic.  Each commander name is then resolved by a rate-limited
Scryfall fuzzy lookup; a 404, another non-200 status or a raised transport
error aborts the whole call.  Each resolved card yields a `card_info` record
with a commander-eligibility check and a partner-keyword scan (first keyword
of the fixed list whose lowercase form occurs in the lowercased oracle text);
with two commanders a partner-compatibility chain runs.  When validation
passes, the function fans out to the other aggregators; those sub-calls are
modelled as oracle sub-calls (`GatherEnv`) returning an opaque payload plus
their own effect trace, since their internals are embedded separately or are
out of the claims' scope; a raised sub-call exception is caught per field and
stored as an `{"error": str(e)}` payload (`Except.error` here). -/

/-- Decoded card record of the Scryfall fuzzy lookup, with the
`card.get(...)` default projections of the validation loop applied. -/
structure ScryCommanderCard where
  name : String
  type_line : String
  oracle_text : String
  color_identity : List String
  mana_cost : String
  cmc : ℚ
  keywords : List String
deriving DecidableEq, Repr

/-- One response of the Scryfall fuzzy lookup; the body is decoded only when
the status is 200, so a non-200 response's `card` field is never read. -/
structure CardResponse where
  status : Nat
  card : ScryCommanderCard
deriving DecidableEq, Repr

/-- The `partner_keywords` list, in source order: the generic `"Partner"`
entry precedes `"Partner with"`. -/
def partnerKeywords : List String :=
  ["Partner", "Partner with", "Choose a Background", "Friends forever",
   "Doctor" ++ apos ++ "s companion"]

/-- The partner-keyword scan: the first keyword of `partnerKeywords` whose
lowercase form is a substring of the lowercased oracle text (the source
breaks out of the loop at the first hit). -/
def findPartnerType (oracle_text : String) : Option String :=
  partnerKeywords.find? (fun kw => strContains oracle_text.toLower kw.toLower)

/-- The `card_info` record built for each commander. -/
structure CommanderInfo where
  name : String
  type_line : String
  oracle_text : String
  color_identity : List String
  mana_cost : String
  cmc : ℚ
  keywords : List String
  can_be_commander : Bool
  partner_type : Option String
deriving DecidableEq, Repr

/-- Build one `card_info` plus the optional eligibility error: eligible iff
the type line contains both `"Legendary"` and `"Creature"`, or the lowercased
oracle text contains `"can be your commander"`. -/
def buildCommanderInfo (card : ScryCommanderCard) : CommanderInfo × Option String :=
  let is_legendary := strContains card.type_line "Legendary"
  let is_creature := strContains card.type_line "Creature"
  let has_commander_text := strContains card.oracle_text.toLower "can be your commander"
  let can_be := (is_legendary && is_creature) || has_commander_text
  ({ name := card.name, type_line := card.type_line, oracle_text := card.oracle_text,
     color_identity := card.color_identity, mana_cost := card.mana_cost,
     cmc := card.cmc, keywords := card.keywords, can_be_commander := can_be,
     partner_type := findPartnerType card.oracle_text },
   if can_be then none
   else some (card.name ++ " is not a legendary creature and doesn" ++ apos ++
     "t have " ++ apos ++ "can be your commander" ++ apos ++ " text"))

/-- The per-card validation loop: `card_info`s in card order and the
eligibility errors in the order they are appended. -/
def buildCommanderInfos (cards : List ScryCommanderCard) :
    List CommanderInfo × List String :=
  cards.foldl (fun acc card =>
    let r := buildCommanderInfo card
    (acc.1 ++ [r.1], acc.2 ++ (match r.2 with | some e => [e] | none => [])))
    ([], [])

/-- Python's `partner_type or 'no partner ability'` (partner keywords are
never the empty string, so `or` is plain `None`-defaulting here). -/
def orNoPartner : Option String → String
  | some s => s
  | none => "no partner ability"

/-- The partner-compatibility `if/elif` chain (`partner_valid`). -/
def partnerValid (cmd1 cmd2 : CommanderInfo) : Bool :=
  (cmd1.partner_type == some "Partner with" && strContains cmd1.oracle_text cmd2.name) ||
  (cmd2.partner_type == some "Partner with" && strContains cmd2.oracle_text cmd1.name) ||
  (cmd1.partner_type == some "Partner" && cmd2.partner_type == some "Partner") ||
  (cmd1.partner_type == some "Choose a Background" && strContains cmd2.type_line "Background") ||
  (cmd2.partner_type == some "Choose a Background" && strContains cmd1.type_line "Background") ||
  (cmd1.partner_type == some "Friends forever" && cmd2.partner_type == some "Friends forever") ||
  (cmd1.partner_type == some ("Doctor" ++ apos ++ "s companion") &&
    strContains cmd2.type_line "Doctor") ||
  (cmd2.partner_type == some ("Doctor" ++ apos ++ "s companion") &&
    strContains cmd1.type_line "Doctor")

/-- The two-commander validation block: the both-must-be-commanders error,
then the partner-compatibility error when the chain leaves `partner_valid`
false.  Applies only when exactly two commanders were supplied. -/
def partnerErrors (infos : List CommanderInfo) : List String :=
  match infos with
  | [cmd1, cmd2] =>
    (if cmd1.can_be_commander && cmd2.can_be_commander then []
     else ["Both cards must be able to be commanders"]) ++
    (if partnerValid cmd1 cmd2 then []
     else ["Commanders are not valid partners. " ++ cmd1.name ++ " has " ++
       orNoPartner cmd1.partner_type ++ " and " ++ cmd2.name ++ " has " ++
       orNoPartner cmd2.partner_type])
  | _ => []

/-- `sorted(all_colors)` where `all_colors` is the set union of the
commanders' color identities: distinct symbols, ascending. -/
def combinedColorIdentity (infos : List CommanderInfo) : List String :=
  ((infos.flatMap (fun c => c.color_identity)).eraseDups).mergeSort
    (fun a b : String => a ≤ b)

/-- The Scryfall fuzzy-lookup URL of the commander fetch loop. -/
def scryfallFuzzyUrl (name : String) : String :=
  "https://api.scryfall.com/cards/named?fuzzy=" ++ name

/-- Per-commander gathered data (`commander_data`): each field holds the
sub-call's payload, or the `{"error": str(e)}` substitute when the sub-call
raised. -/
structure CommanderDeckData where
  name : String
  recommendations : Except String String
  combos : Except String String
  rulings : Except String String
deriving Repr

/-- The always-loaded context plus per-commander data gathered after
successful validation. -/
structure DeckData where
  comprehensive_rules : String
  commander_context : String
  all_brackets : String
  export_format : String
  commanders : List CommanderDeckData
deriving Repr

/-- Oracle for the gather phase: each sub-aggregator call yields its payload
(opaque here) together with the effect trace it performs; the three
per-commander calls may raise (`Except.error`), which the source catches
per field. -/
structure GatherEnv where
  rules_info : String × List Effect
  commander_context : String × List Effect
  brackets : String × List Effect
  export_format : String × List Effect
  recommend : String → Except String String × List Effect
  combos : String → Except String String × List Effect
  rulings : String → Except String String × List Effect

/-- Result dictionary of `generate_commander_deck_data`: the three argument
validation errors, the three fetch-failure errors, the validation-failed
result (`valid: False` with the per-violation reasons) and the
validation-passed result carrying the gathered deck data. -/
inductive DeckGenResult where
  | bracketError (provided_bracket : Int)
  | noCommanderError
  | tooManyError (provided_count : Nat)
  | commanderNotFound (name : String)
  | fetchStatusError (name : String) (status_code : Nat)
  | fetchExceptionError (details : String)
  | invalid (commanders : List CommanderInfo) (validation_errors : List String)
      (color_identity : List String) (target_bracket : Int)
  | valid (commanders : List CommanderInfo) (color_identity : List String)
      (target_bracket : Int) (deck_data : DeckData)
deriving Repr

/-- The commander fetch loop: one rate-limited fuzzy lookup per name, in
order, aborting on the first 404, non-200 or raised transport error (the
whole loop sits in one `try`).  `env` maps a commander name to the response
of its fuzzy lookup. -/
def fetchCommanders (env : String → Except String CardResponse) :
    List String → List ScryCommanderCard → List Effect →
    Except DeckGenResult (List ScryCommanderCard) × List Effect
  | [], acc, tr => (.ok acc, tr)
  | name :: rest, acc, tr =>
    let tr' := tr ++ [Effect.rateLimit "scryfall", Effect.httpGet (scryfallFuzzyUrl name)]
    match env name with
    | .error e => (.error (.fetchExceptionError e), tr')
    | .ok resp =>
      if resp.status = 404 then (.error (.commanderNotFound name), tr')
      else if resp.status ≠ 200 then (.error (.fetchStatusError name resp.status), tr')
      else fetchCommanders env rest (acc ++ [resp.card]) tr'

/-- `generate_commander_deck_data(commanders, bracket)`. -/
def generate_commander_deck_data (env : String → Except String CardResponse)
    (genv : GatherEnv) (commanders : List String) (bracket : Int) :
    DeckGenResult × List Effect :=
  if bracket < 1 ∨ bracket > 5 then (.bracketError bracket, [])
  else if commanders.isEmpty then (.noCommanderError, [])
  else if commanders.length > 2 then (.tooManyError commanders.length, [])
  else
    match fetchCommanders env commanders [] [] with
    | (.error r, tr) => (r, tr)
    | (.ok cards, tr) =>
      let bi := buildCommanderInfos cards
      let infos := bi.1
      let validation_errors :=
        bi.2 ++ (if commanders.length = 2 then partnerErrors infos else [])
      let color_identity := combinedColorIdentity infos
      if validation_errors.isEmpty then
        let cmdData := infos.map (fun cmd =>
          { name := cmd.name
            recommendations := (genv.recommend cmd.name).1
            combos := (genv.combos cmd.name).1
            rulings := (genv.rulings cmd.name).1 : CommanderDeckData })
        let gatherTr :=
          genv.rules_info.2 ++ genv.commander_context.2 ++ genv.brackets.2 ++
          genv.export_format.2 ++
          infos.flatMap (fun cmd =>
            (genv.recommend cmd.name).2 ++ (genv.combos cmd.name).2 ++
            (genv.rulings cmd.name).2)
        (.valid infos color_identity bracket
          { comprehensive_rules := genv.rules_info.1
            commander_context := genv.commander_context.1
            all_brackets := genv.brackets.1
            export_format := genv.export_format.1
            commanders := cmdData }, tr ++ gatherTr)
      else (.invalid infos validation_errors color_identity bracket, tr)

/-! ## 11. Claim-support definitions

Projections of the result dictionaries (presence of the `"error"` key, the
`"valid"` flag) and the concrete inputs used by counterexamples and
witnesses. -/

/-- Whether the `fetch_and_parse_rules` result dict has an `"error"` key. -/
def rulesHasError : RulesResult → Bool
  | .ok _ _ => false
  | .fetchError _ => true

/-- Whether the `fetch_banned_cards` result dict has an `"error"` key. -/
def bannedHasError : BannedOutcome → Bool
  | .ok _ _ _ => false
  | .statusError _ => true
  | .exceptionError _ => true

/-- Whether the `search_combos` result dict has an `"error"` key. -/
def combosHasError : CombosResult → Bool
  | .ok _ _ _ _ => false
  | .statusError _ _ => true
  | .exceptionError _ _ => true

/-- Whether the `search_rulings` result dict has an `"error"` key. -/
def rulingsHasError : RulingsResult → Bool
  | .ok _ _ _ _ _ => false
  | .cardNotFound _ _ => true
  | .noCardId _ => true
  | .rulingsError _ _ => true
  | .exceptionError _ _ => true

/-- Whether the `fetch_game_changers` result dict has an `"error"` key. -/
def gcHasError : GCResult → Bool
  | .ok _ _ _ => false
  | .statusError _ => true
  | .exceptionError _ => true

/-- Whether the `fetch_archidekt_deck` result dict has an `"error"` key. -/
def archHasError : ArchResult → Bool
  | .ok _ _ _ _ _ => false
  | _ => true

/-- Whether the `fetch_moxfield_deck` result dict has an `"error"` key. -/
def moxHasError : MoxResult → Bool
  | .ok _ _ _ _ _ _ _ _ _ => false
  | _ => true

/-- The `"valid"` field of the `generate_commander_deck_data` result dict:
`True` only in the validation-passed result. -/
def deckGenValidFlag : DeckGenResult → Bool
  | .valid _ _ _ _ => true
  | _ => false

/-- Whether the `generate_commander_deck_data` result dict has a top-level
`"error"` key (the six early-error returns have one; the validation-failed
and validation-passed results do not). -/
def deckGenHasTopError : DeckGenResult → Bool
  | .bracketError _ => true
  | .noCommanderError => true
  | .tooManyError _ => true
  | .commanderNotFound _ => true
  | .fetchStatusError _ _ => true
  | .fetchExceptionError _ => true
  | .invalid _ _ _ _ => false
  | .valid _ _ _ _ => false

/-- A gather-phase oracle whose sub-calls return fixed payloads and no
effects; used to run `generate_commander_deck_data` on concrete inputs. -/
def trivGatherEnv : GatherEnv where
  rules_info := ("rules", [])
  commander_context := ("context", [])
  brackets := ("brackets", [])
  export_format := ("export", [])
  recommend := fun _ => (.ok "recs", [])
  combos := fun _ => (.ok "combos", [])
  rulings := fun _ => (.ok "rulings", [])

/-- A commander card whose oracle text names a specific partner, `Bob`. -/
def cardAlice : ScryCommanderCard where
  name := "Alice, the First"
  type_line := "Legendary Creature - Human Knight"
  oracle_text := "Partner with Bob"
  color_identity := ["W"]
  mana_cost := "{1}{W}"
  cmc := 2
  keywords := ["Partner with"]

/-- A commander card whose oracle text names a different specific partner,
`Carol` — so this card is not `Bob` and by the specification must not pair
with `cardAlice`. -/
def cardDave : ScryCommanderCard where
  name := "Dave of the Deep"
  type_line := "Legendary Creature - Merfolk Wizard"
  oracle_text := "Partner with Carol"
  color_identity := ["U"]
  mana_cost := "{2}{U}"
  cmc := 3
  keywords := ["Partner with"]

/-- Scryfall oracle resolving the two concrete commanders above. -/
def envTwoPartners : String → Except String CardResponse := fun n =>
  if n = "Alice, the First" then .ok { status := 200, card := cardAlice }
  else if n = "Dave of the Deep" then .ok { status := 200, card := cardDave }
  else .ok { status := 404, card := cardAlice }

/-- A banned card named `Zeta` (other fields empty). -/
def zetaCard : BCard where
  name := "Zeta"
  type_line := ""
  mana_cost := ""
  cmc := 0
  color_identity := []
  oracle_text := ""
  scryfall_uri := ""

/-- A banned card named `Alpha` (other fields empty). -/
def alphaCard : BCard where
  name := "Alpha"
  type_line := ""
  mana_cost := ""
  cmc := 0
  color_identity := []
  oracle_text := ""
  scryfall_uri := ""

/-- A two-page Scryfall chain: the first page holds only `Zeta` and links to
a second page holding only `Alpha`. -/
def pagesZetaAlpha : String → Except String BannedPage := fun url =>
  if url = bannedSearchUrl then .ok { status := 200, data := [zetaCard], next_page := some "p2" }
  else if url = "p2" then .ok { status := 200, data := [alphaCard], next_page := none }
  else .error "no such page"

/-- A one-page oracle answering status 500, for the banned-cards witness. -/
def pagesStatus500 : String → Except String BannedPage := fun _ =>
  .ok { status := 500, data := [], next_page := none }

/-- Six opaque combo variants, one more than the requested `limit=5`. -/
def comboSix : List String := ["v1", "v2", "v3", "v4", "v5", "v6"]

/-- A deck-API oracle that always raises, for the invalid-URL witnesses (the
URL check must return before this oracle could ever be consulted). -/
def archEnvBoom : String → Except TransportError ArchResponse := fun _ =>
  .error (.clientError "boom")

/-- Same for Moxfield. -/
def moxEnvBoom : String → Except TransportError MoxResponse := fun _ =>
  .error (.clientError "boom")

/-- A concrete Moxfield response with all four boards populated, for the
C10 witness. -/
def moxRespEx : MoxResponse where
  status := 200
  deck_name := "Test Deck"
  boards :=
    [("mainboard", { count := 2, cards := [{ quantity := 2, name := "Island" }] }),
     ("sideboard", { count := 1, cards := [{ quantity := 1, name := "Negate" }] }),
     ("maybeboard", { count := 3, cards := [{ quantity := 3, name := "Opt" }] }),
     ("commanders", { count := 1, cards := [{ quantity := 1, name := "Talrand, Sky Summoner" }] })]

/-- Moxfield deck-API oracle answering `moxRespEx` for the witness URL. -/
def moxEnvEx : String → Except TransportError MoxResponse := fun url =>
  if url = moxApiUrl "abc123" then .ok moxRespEx else .error (.clientError "boom")

/-! ## Helper lemmas -/

theorem lookupLast_stampTime_self (st : RateState) (api : String) (t : ℚ) :
    lookupLast (stampTime st api t) api = t := by
  induction st with
  | nil => simp [stampTime, lookupLast, List.find?]
  | cons p rest ih =>
    cases hb : (p.1 == api) with
    | true => simp [stampTime, hb, lookupLast, List.find?]
    | false => simpa [stampTime, hb, lookupLast, List.find?] using ih

theorem lookupLast_stampTime_ne (st : RateState) (api b : String) (t : ℚ)
    (hne : b ≠ api) : lookupLast (stampTime st api t) b = lookupLast st b := by
  have hab : (api == b) = false := by
    rw [beq_eq_false_iff_ne]
    exact hne.symm
  induction st with
  | nil => simp [stampTime, lookupLast, List.find?, hab]
  | cons p rest ih =>
    cases hb : (p.1 == api) with
    | true =>
      have hp : p.1 = api := by simpa using hb
      simp [stampTime, hb, lookupLast, List.find?, hp, hab]
    | false =>
      cases hpb : (p.1 == b) with
      | true => simp [stampTime, hb, lookupLast, List.find?, hpb]
      | false => simpa [stampTime, hb, lookupLast, List.find?, hpb] using ih

/-- A single limiter call returns no earlier than 100ms after the stored
stamp, provided it starts no earlier than the stamp. -/
theorem rate_limit_return_lb (st : RateState) (api : String) (t : ℚ) :
    lookupLast st api + 1/10 ≤ (rate_limit_api_call st api t).1 := by
  simp only [rate_limit_api_call, api_rate_limit_ms]
  split
  · rename_i hlt
    have key : t + (100 - (t - lookupLast st api) * 1000) / 1000 =
        lookupLast st api + 1/10 := by ring
    linarith
  · rename_i hge
    push_neg at hge
    linarith

theorem runCachedCalls_some {α : Type} (step : Option α → α → α × Option α × Nat)
    (hsome : ∀ (v f : α), step (some v) f = (v, some v, 0)) :
    ∀ (fs : List α) (v : α),
      runCachedCalls step (some v) fs = (List.replicate fs.length v, some v, 0) := by
  intro fs
  induction fs with
  | nil => intro v; simp [runCachedCalls]
  | cons f fs ih =>
    intro v
    simp [runCachedCalls, hsome, ih, List.replicate_succ]

/-! ## Claim theorems -/

/-- C4: for every API name, two successive `rate_limit_api_call` invocations
for the same name space the API calls they guard at least 100ms (= 1/10 s)
apart: measured between the limiter's return timestamps (the instants the
guarded API calls begin), the second return comes at least 1/10 after the
first whenever the second invocation starts no earlier than the first one
returned; the second call sleeps exactly the remaining delta when the elapsed
time since the stamp is under 100ms and re-stamps unconditionally; a call for
a name whose stamp is still the initial `0` never waits (for any clock value
at least 0.1s, which every real epoch clock satisfies); and the wait depends
only on the caller's own API-name entry while the re-stamp leaves every other
API name's entry unchanged. -/
theorem C4_rate_limiter_spacing :
    (∀ (st : RateState) (api : String) (t0 t1 : ℚ),
        (rate_limit_api_call st api t0).1 ≤ t1 →
        (rate_limit_api_call st api t0).1 + 1/10 ≤
          (rate_limit_api_call (rate_limit_api_call st api t0).2 api t1).1) ∧
    (∀ (st : RateState) (api : String) (t : ℚ),
        lookupLast st api = 0 → 1/10 ≤ t → (rate_limit_api_call st api t).1 = t) ∧
    (∀ (st st' : RateState) (api : String) (t : ℚ),
        lookupLast st api = lookupLast st' api →
        (rate_limit_api_call st api t).1 = (rate_limit_api_call st' api t).1) ∧
    (∀ (st : RateState) (api b : String) (t : ℚ), b ≠ api →
        lookupLast (rate_limit_api_call st api t).2 b = lookupLast st b) := by
  refine ⟨?_, ?_, ?_, ?_⟩
  · intro st api t0 t1 h1
    have hstamp : lookupLast (rate_limit_api_call st api t0).2 api =
        (rate_limit_api_call st api t0).1 := by
      simp only [rate_limit_api_call]
      exact lookupLast_stampTime_self st api _
    have hb := rate_limit_return_lb (rate_limit_api_call st api t0).2 api t1
    rw [hstamp] at hb
    exact hb
  · intro st api t h0 ht
    simp only [rate_limit_api_call, h0, api_rate_limit_ms]
    split
    · rename_i hlt
      exfalso
      linarith
    · rfl
  · intro st st' api t h
    simp only [rate_limit_api_call, h]
  · intro st api b t hne
    simp only [rate_limit_api_call]
    exact lookupLast_stampTime_ne st api b _ hne

/-- C4 witness: concrete run with `st = []`, `api = "scryfall"`, the first
call starting at `t0 = 1` and the second at `t1 = 1` (immediately at the
first call's return): the second guarded call begins at least 1/10 after the
first; a call at `t = 1/5` with a zero stamp does not wait; and stamping
`"scryfall"` leaves `"archidekt"`'s entry unchanged. -/
theorem C4_rate_limiter_spacing_witness :
    ((rate_limit_api_call [] "scryfall" 1).1 + 1/10 ≤
      (rate_limit_api_call (rate_limit_api_call [] "scryfall" 1).2 "scryfall" 1).1) ∧
    (rate_limit_api_call [("scryfall", 0)] "scryfall" (1/5)).1 = 1/5 ∧
    lookupLast (rate_limit_api_call [] "scryfall" 1).2 "archidekt" = 0 := by
  refine ⟨?_, ?_, ?_⟩
  · exact C4_rate_limiter_spacing.1 [] "scryfall" 1 1 (by
      norm_num [rate_limit_api_call, lookupLast, stampTime, List.find?, api_rate_limit_ms])
  · exact C4_rate_limiter_spacing.2.1 [("scryfall", 0)] "scryfall" (1/5)
      (by norm_num [lookupLast, List.find?]) (by norm_num)
  · exact C4_rate_limiter_spacing.2.2.2 [] "scryfall" "archidekt" 1 (by decide)

/-- C2: for each cached dataset — comprehensive rules (`get_rules`), banned
cards (`get_banned_cards`), game changers (`get_game_changers`) — a sequence
of `n ≥ 1` sequential calls starting from the unpopulated cache runs the
underlying fetch exactly once, stores whatever that first fetch returned
(success or error payload alike), and returns that stored value from every
call, regardless of what later fetches would have returned; there is no TTL
or invalidation (the model has no notion of time or reset at all). -/
theorem C2_cache_fetch_once :
    (∀ (f : RulesResult) (fs : List RulesResult),
        runCachedCalls get_rules none (f :: fs) =
          (List.replicate (fs.length + 1) f, some f, 1)) ∧
    (∀ (f : BannedOutcome) (fs : List BannedOutcome),
        runCachedCalls get_banned_cards none (f :: fs) =
          (List.replicate (fs.length + 1) f, some f, 1)) ∧
    (∀ (f : GCResult) (fs : List GCResult),
        runCachedCalls get_game_changers none (f :: fs) =
          (List.replicate (fs.length + 1) f, some f, 1)) := by
  refine ⟨?_, ?_, ?_⟩
  · intro f fs
    simp [runCachedCalls, get_rules,
      runCachedCalls_some get_rules (fun _ _ => rfl) fs f, List.replicate_succ]
  · intro f fs
    simp [runCachedCalls, get_banned_cards,
      runCachedCalls_some get_banned_cards (fun _ _ => rfl) fs f, List.replicate_succ]
  · intro f fs
    simp [runCachedCalls, get_game_changers,
      runCachedCalls_some get_game_changers (fun _ _ => rfl) fs f, List.replicate_succ]

/-- C3: `generate_commander_deck_data` validates its arguments before any
network access: whenever the bracket lies outside the closed range [1,5], or
the commander list is empty, or it has more than two entries, the function
returns one of the argument-error dictionaries — which carries an `"error"`
key and `"valid": False` — with an empty effect trace, i.e. no upstream HTTP
fetch and no rate-limiter acquisition. -/
theorem C3_validation_before_io :
    ∀ (env : String → Except String CardResponse) (genv : GatherEnv)
      (commanders : List String) (bracket : Int),
      (bracket < 1 ∨ 5 < bracket) ∨ commanders = [] ∨ 2 < commanders.length →
      (generate_commander_deck_data env genv commanders bracket).2 = [] ∧
      deckGenHasTopError (generate_commander_deck_data env genv commanders bracket).1 = true ∧
      deckGenValidFlag (generate_commander_deck_data env genv commanders bracket).1 = false := by
  intro env genv commanders bracket h
  by_cases hb : bracket < 1 ∨ bracket > 5
  · simp [generate_commander_deck_data, hb, deckGenHasTopError, deckGenValidFlag]
  · by_cases hc : commanders.isEmpty
    · simp [generate_commander_deck_data, hb, hc, deckGenHasTopError, deckGenValidFlag]
    · have hlen : 2 < commanders.length := by
        rcases h with h | h | h
        · exact absurd h hb
        · rw [h] at hc
          simp at hc
        · exact h
      simp [generate_commander_deck_data, hb, hc, hlen, deckGenHasTopError, deckGenValidFlag]

/-- C3 witness: bracket `0` with one commander returns the bracket error with
no effects. -/
theorem C3_validation_before_io_witness :
    (generate_commander_deck_data envTwoPartners trivGatherEnv
      ["Alice, the First"] 0).2 = [] ∧
    deckGenHasTopError (generate_commander_deck_data envTwoPartners trivGatherEnv
      ["Alice, the First"] 0).1 = true ∧
    deckGenValidFlag (generate_commander_deck_data envTwoPartners trivGatherEnv
      ["Alice, the First"] 0).1 = false :=
  C3_validation_before_io envTwoPartners trivGatherEnv ["Alice, the First"] 0
    (Or.inl (Or.inl (by decide)))

unseal String.mapAux List.merge List.mergeSort in
/-- C1 (code bug): the keyword scan assigns `partner_type` from the list
`["Partner", "Partner with", ...]` in order, and `"partner"` is a substring
of `"partner with"`, so a card whose oracle text contains a named partner
reference `"Partner with X"` is always classified as generic `"Partner"` and
the named branch of the compatibility chain is unreachable.  Concretely:
`cardAlice` names partner `Bob`, `cardDave` is not named `Bob` (he names
`Carol`), yet the pair validates — `generate_commander_deck_data` returns the
validation-passed result with no partner-compatibility error — because both
cards are classified as generic `"Partner"`. -/
theorem C1_partner_with_shadowed :
    deckGenValidFlag (generate_commander_deck_data envTwoPartners trivGatherEnv
      ["Alice, the First", "Dave of the Deep"] 2).1 = true ∧
    strContains cardAlice.oracle_text "Partner with Bob" = true ∧
    cardDave.name ≠ "Bob" ∧
    findPartnerType cardAlice.oracle_text = some "Partner" ∧
    findPartnerType cardDave.oracle_text = some "Partner" := by
  refine ⟨?_, by decide, by decide, by decide, by decide⟩
  decide

/-- A marker line's stripped content is nonempty (it starts with a digit and
a period). -/
theorem sectionMarker_trim_ne {l : String} (h : isSectionMarker l = true) :
    l.trim ≠ "" := by
  intro h0
  simp only [isSectionMarker, List.any_eq_true] at h
  obtain ⟨p, hp, hpre⟩ := h
  rw [h0] at hpre
  fin_cases hp <;> exact absurd hpre (by decide)

/-- The head of a `dropWhile` residue falsifies the predicate. -/
theorem dropWhile_head_false {α : Type} {p : α → Bool} :
    ∀ {ls : List α} {x : α} {xs : List α}, ls.dropWhile p = x :: xs → p x = false := by
  intro ls
  induction ls with
  | nil => intro x xs h; simp [List.dropWhile] at h
  | cons a rest ih =>
    intro x xs h
    by_cases hp : p a
    · rw [List.dropWhile_cons_of_pos hp] at h
      exact ih h
    · rw [List.dropWhile_cons_of_neg hp] at h
      cases h
      simpa using hp

/-- With no section open, the loop skips lines up to the first marker. -/
theorem parseRulesLoop_none_skip :
    ∀ (ls ct : List String) (d : List (String × String)),
      parseRulesLoop ls none ct d =
        parseRulesLoop (ls.dropWhile (fun l => !isSectionMarker l)) none ct d := by
  intro ls
  induction ls with
  | nil => intro ct d; rfl
  | cons l rest ih =>
    intro ct d
    by_cases hm : isSectionMarker l
    · rw [List.dropWhile_cons_of_neg (by simp [hm])]
    · rw [List.dropWhile_cons_of_pos (by simp [hm])]
      rw [show parseRulesLoop (l :: rest) none ct d = parseRulesLoop rest none ct d from by
        simp [parseRulesLoop, hm]]
      exact ih ct d

/-- With a (nonempty-keyed, nonempty-bodied) section open, the loop equals
the chunk fold: the pending section absorbs the non-marker run, and each
further marker starts a chunk. -/
theorem parseRulesLoop_some_chunks :
    ∀ (ls : List String) (sec : String) (ct : List String) (d : List (String × String)),
      sec ≠ "" → ct ≠ [] →
      parseRulesLoop ls (some sec) ct d =
        (sectionChunks (ls.dropWhile (fun l => !isSectionMarker l))).foldl chunkStep
          (dictInsert d sec (String.intercalate "\n"
            (ct ++ ls.takeWhile (fun l => !isSectionMarker l)))) := by
  intro ls
  induction ls with
  | nil =>
    intro sec ct d hs hc
    simp [parseRulesLoop, flushSection, sectionChunks, hs, hc]
  | cons l rest ih =>
    intro sec ct d hs hc
    by_cases hm : isSectionMarker l
    · rw [List.dropWhile_cons_of_neg (by simp [hm]), List.takeWhile_cons_of_neg (by simp [hm])]
      rw [show parseRulesLoop (l :: rest) (some sec) ct d
            = parseRulesLoop rest (some l.trim) [l] (flushSection (some sec) ct d) from by
          simp [parseRulesLoop, hm]]
      rw [show flushSection (some sec) ct d
            = dictInsert d sec (String.intercalate "\n" ct) from by
          simp [flushSection, hs, hc]]
      rw [ih l.trim [l] _ (sectionMarker_trim_ne hm) (by simp)]
      rw [show sectionChunks (l :: rest)
            = (l :: rest.takeWhile (fun x => !isSectionMarker x)) ::
              sectionChunks (rest.dropWhile (fun x => !isSectionMarker x)) from by
          simp [sectionChunks]]
      rw [List.foldl_cons]
      simp [chunkStep]
    · rw [List.dropWhile_cons_of_pos (by simp [hm]), List.takeWhile_cons_of_pos (by simp [hm])]
      rw [show parseRulesLoop (l :: rest) (some sec) ct d
            = parseRulesLoop rest (some sec) (ct ++ [l]) d from by
          simp [parseRulesLoop, hm]]
      rw [ih sec (ct ++ [l]) d hs (by simp)]
      simp [List.append_assoc]

/-- The fetched-rules section splitter agrees with the specification-side
chunking description. -/
theorem parseRulesSections_eq_spec (text : String) :
    parseRulesSections text = specParseSections text := by
  unfold parseRulesSections specParseSections
  rw [parseRulesLoop_none_skip]
  cases hdw : (text.splitOn "\n").dropWhile (fun l => !isSectionMarker l) with
  | nil => simp [parseRulesLoop, flushSection, sectionChunks]
  | cons l rest =>
    have hm : isSectionMarker l = true := by
      simpa using dropWhile_head_false hdw
    rw [show parseRulesLoop (l :: rest) none [] []
          = parseRulesLoop rest (some l.trim) [l] [] from by
        simp [parseRulesLoop, hm, flushSection]]
    rw [parseRulesLoop_some_chunks rest l.trim [l] [] (sectionMarker_trim_ne hm) (by simp)]
    rw [show sectionChunks (l :: rest)
          = (l :: rest.takeWhile (fun x => !isSectionMarker x)) ::
            sectionChunks (rest.dropWhile (fun x => !isSectionMarker x)) from by
        simp [sectionChunks]]
    rw [List.foldl_cons]
    simp [chunkStep]

unseal String.splitOnAux Substring.takeWhileAux Substring.takeRightWhileAux in
/-- C6 counterexample: a line starting with `"100."` is not a section marker
— the source only matches a single digit followed by a period — so, contrary
to the claim's `'100.'` example, such a line does not open a section keyed by
its content: it is absorbed into the preceding section's text. -/
theorem C6_counterexample_hundred_marker :
    isSectionMarker "100. General" = false ∧
    parseRulesSections "1. A\n100. General\nfoo" =
      [("1. A", "1. A\n100. General\nfoo")] := by
  exact ⟨by decide, by decide⟩

unseal String.splitOnAux Substring.takeWhileAux Substring.takeRightWhileAux in
/-- C6 (amended): `fetch_and_parse_rules` splits the fetched text into
sections keyed by the stripped content of each marker line — a line whose
stripped form begins with a SINGLE digit followed by a period (`'0.'` …
`'9.'`; a multi-digit prefix such as `'100.'` is not a marker) — where lines
before the first marker are discarded and each section's text is the
concatenation of its marker line and all following lines up to (not
including) the next marker line; in particular, the claim's example input
`'intro\n1. A\nfoo\n2. B\nbar'` yields exactly the sections
`{'1. A': '1. A\nfoo', '2. B': '2. B\nbar'}`. -/
theorem C6_rules_parser_sections :
    (∀ text : String, parseRulesSections text = specParseSections text) ∧
    parseRulesSections "intro\n1. A\nfoo\n2. B\nbar" =
      [("1. A", "1. A\nfoo"), ("2. B", "2. B\nbar")] :=
  ⟨parseRulesSections_eq_spec, by decide⟩

/-- Loop invariant of `fetchBannedLoop`: a successful run consumed a full
status-200 chain of pages linked by `next_page`, returns the accumulated
cards sorted by name, and logged exactly one rate-limiter acquisition
immediately before each page fetch. -/
theorem fetchBannedLoop_ok (pages : String → Except String BannedPage) :
    ∀ (fuel : Nat) (url : String) (acc : List BCard) (tr trOut : List Effect)
      (names : List String) (details : List BCard) (total : Nat),
      fetchBannedLoop pages fuel url acc tr =
        some (.ok names details total, trOut) →
      ∃ (urls : List String) (datas : List BCard),
        FollowsChain pages url urls datas ∧
        details = (acc ++ datas).mergeSort bcardLe ∧
        names = details.map BCard.name ∧
        total = names.length ∧
        trOut = tr ++ urls.flatMap
          (fun u => [Effect.rateLimit "scryfall", Effect.httpGet u]) := by
  intro fuel
  induction fuel with
  | zero =>
    intro url acc tr trOut names details total h
    simp [fetchBannedLoop] at h
  | succ fuel ih =>
    intro url acc tr trOut names details total h
    simp only [fetchBannedLoop] at h
    cases hp : pages url with
    | error e => rw [hp] at h; simp at h
    | ok page =>
      rw [hp] at h
      dsimp only at h
      by_cases hs : page.status = 200
      · rw [if_neg (by simp [hs])] at h
        cases hn : page.next_page with
        | some nxt =>
          rw [hn] at h
          obtain ⟨urls, datas, hchain, hdet, hnames, htot, htr⟩ :=
            ih nxt (acc ++ page.data) _ trOut names details total h
          refine ⟨url :: urls, page.data ++ datas, .step hp hs hn hchain, ?_, hnames, htot, ?_⟩
          · rw [hdet, List.append_assoc]
          · rw [htr]
            simp
        | none =>
          rw [hn] at h
          simp only [Option.some.injEq, Prod.mk.injEq, BannedOutcome.ok.injEq] at h
          obtain ⟨⟨h1, h2, h3⟩, h4⟩ := h
          refine ⟨[url], page.data, .last hp hs hn, h2.symm, ?_, ?_, ?_⟩
          · rw [← h1, ← h2]
          · rw [← h3, ← h1]
          · rw [← h4]
            simp
      · rw [if_pos (by simp [hs])] at h
        simp at h

/-- `lexLe` agrees with the lexicographic strict order: `lexLe s t` iff `t`
is not lexicographically below `s`. -/
theorem lexLe_iff_not_lex : ∀ (s t : List Char),
    lexLe s t = true ↔ ¬ List.Lex (· < ·) t s := by
  intro s
  induction s with
  | nil =>
    intro t
    simp [lexLe, List.Lex.not_nil_right]
  | cons a as ih =>
    intro t
    cases t with
    | nil =>
      simp only [lexLe, Bool.false_eq_true, false_iff, not_not]
      exact List.Lex.nil
    | cons b bs =>
      rcases lt_trichotomy a b with hab | hab | hab
      · have hnot : ¬ List.Lex (· < ·) (b :: bs) (a :: as) := by
          intro hcontra
          cases hcontra with
          | cons h' => exact lt_irrefl a hab
          | rel h' => exact lt_asymm hab h'
        simp [lexLe, if_pos hab, hnot]
      · subst hab
        simp only [lexLe, lt_irrefl, if_false, List.Lex.cons_iff]
        exact ih bs
      · have hlex : List.Lex (· < ·) (b :: bs) (a :: as) := List.Lex.rel hab
        simp [lexLe, if_neg (lt_asymm hab), if_pos hab, hlex]

/-- `bcardLe` is the name order on banned-card records. -/
theorem bcardLe_iff (a b : BCard) : bcardLe a b = true ↔ a.name ≤ b.name := by
  rw [bcardLe, String.le_iff_toList_le, ← not_lt,
    lexLe_iff_not_lex a.name.toList b.name.toList]
  exact not_congr Iff.rfl

/-- C5: whenever `fetch_banned_cards` returns its success dictionary, the
run followed the response-supplied `next_page` links until one was absent
(`FollowsChain`), invoked the rate limiter exactly once immediately before
every page fetch including the first (the trace is the per-URL
acquire-then-fetch pattern), accumulated the card entries of all pages
(`details` is a permutation of the concatenated page data), and the returned
`banned_cards` list — the names of `details` — is sorted ascending. -/
theorem C5_banned_pagination_sorted :
    ∀ (pages : String → Except String BannedPage) (fuel : Nat)
      (names : List String) (details : List BCard) (total : Nat)
      (trOut : List Effect),
      fetch_banned_cards pages fuel = some (.ok names details total, trOut) →
      ∃ (urls : List String) (datas : List BCard),
        FollowsChain pages bannedSearchUrl urls datas ∧
        details.Perm datas ∧
        names = details.map BCard.name ∧
        List.Sorted (· ≤ ·) names ∧
        total = names.length ∧
        trOut = urls.flatMap
          (fun u => [Effect.rateLimit "scryfall", Effect.httpGet u]) := by
  intro pages fuel names details total trOut h
  obtain ⟨urls, datas, hchain, hdet, hnames, htot, htr⟩ :=
    fetchBannedLoop_ok pages fuel bannedSearchUrl [] [] trOut names details total h
  have htrans : ∀ (a b c : BCard), bcardLe a b → bcardLe b c → bcardLe a c := by
    intro a b c hab hbc
    rw [bcardLe_iff] at *
    exact le_trans hab hbc
  have htotal : ∀ (a b : BCard), bcardLe a b || bcardLe b a := by
    intro a b
    rcases le_total a.name b.name with hle | hle
    · simp [(bcardLe_iff a b).mpr hle]
    · simp [(bcardLe_iff b a).mpr hle]
  refine ⟨urls, datas, hchain, ?_, hnames, ?_, htot, by simpa using htr⟩
  · rw [hdet]
    simpa using List.mergeSort_perm datas bcardLe
  · rw [hnames, hdet]
    have hpw := List.sorted_mergeSort htrans htotal ([] ++ datas)
    exact List.Pairwise.map BCard.name
      (fun a b hab => (bcardLe_iff a b).mp hab) hpw

unseal List.merge List.mergeSort in
/-- C5 witness: the claim's example — a page containing only `Zeta` linked to
a page containing only `Alpha` — run with fuel 2: the merged name list is
`["Alpha", "Zeta"]`, sorted, a permutation of the two pages' entries, with
the rate limiter acquired before each of the two fetches. -/
theorem C5_banned_pagination_sorted_witness :
    ∃ (urls : List String) (datas : List BCard),
      FollowsChain pagesZetaAlpha bannedSearchUrl urls datas ∧
      List.Perm [alphaCard, zetaCard] datas ∧
      ["Alpha", "Zeta"] = [alphaCard, zetaCard].map BCard.name ∧
      List.Sorted (· ≤ ·) ["Alpha", "Zeta"] ∧
      2 = (["Alpha", "Zeta"] : List String).length ∧
      [Effect.rateLimit "scryfall", Effect.httpGet bannedSearchUrl,
        Effect.rateLimit "scryfall", Effect.httpGet "p2"] =
        urls.flatMap (fun u => [Effect.rateLimit "scryfall", Effect.httpGet u]) :=
  C5_banned_pagination_sorted pagesZetaAlpha 2 ["Alpha", "Zeta"]
    [alphaCard, zetaCard] 2
    [Effect.rateLimit "scryfall", Effect.httpGet bannedSearchUrl,
      Effect.rateLimit "scryfall", Effect.httpGet "p2"]
    (by decide)

/-- C7 counterexample: `search_combos` applies no client-side cap — if the
upstream response carries six results (despite the requested `limit=5`), the
returned `combos` list has six entries and `total_combos` is 6, contradicting
the claim that the list is capped at 5 client-side for every upstream
response. -/
theorem C7_counterexample_six_results :
    (search_combos (.ok { status := 200, results := comboSix }) "Sol Ring").1 =
      .ok "Sol Ring" 6 comboSix (combosApiUrl "Sol Ring") ∧
    ¬ comboSix.length ≤ 5 := by
  exact ⟨rfl, by decide⟩

/-- C7 (amended): `search_combos` performs a single first-page search whose
5-variant cap is requested from the server via the `limit=5` query parameter
of the request URL (which ends in `"&limit=5"`); the returned `combos` list
is exactly the upstream response's result list — however long — and
`total_combos` is its length; no client-side truncation occurs. -/
theorem C7_combos_passthrough_limit_param :
    ∀ (resp : CombosResponse) (name : String), resp.status = 200 →
      (search_combos (.ok resp) name).1 =
        .ok name resp.results.length resp.results (combosApiUrl name) ∧
      List.IsSuffix ("&limit=5".toList) ((combosApiUrl name).toList) := by
  intro resp name h
  constructor
  · simp [search_combos, h]
  · refine ⟨("https://backend.commanderspellbook.com/variants/?q=card:" ++ name).toList ++
      ("+legal:commander").toList, ?_⟩
    have hsplit : ("+legal:commander").toList ++ ("&limit=5").toList =
        ("+legal:commander&limit=5").toList := by decide
    calc (("https://backend.commanderspellbook.com/variants/?q=card:" ++ name).toList ++
          ("+legal:commander").toList) ++ ("&limit=5").toList
        = ("https://backend.commanderspellbook.com/variants/?q=card:" ++ name).toList ++
          ("+legal:commander&limit=5").toList := by
          rw [List.append_assoc, hsplit]
      _ = ((combosApiUrl name)).toList := by
          simp [combosApiUrl, String.toList, String.data_append]

/-- C7 witness: a one-result 200 response passes through unchanged and the
request URL ends in the limit parameter. -/
theorem C7_combos_passthrough_limit_param_witness :
    (search_combos (.ok { status := 200, results := ["v1"] }) "Sol Ring").1 =
      .ok "Sol Ring" (["v1"] : List String).length ["v1"] (combosApiUrl "Sol Ring") ∧
    List.IsSuffix ("&limit=5".toList) ((combosApiUrl "Sol Ring").toList) :=
  C7_combos_passthrough_limit_param { status := 200, results := ["v1"] } "Sol Ring" rfl

/-- C8: for every deck URL that does not match the source's URL pattern
(`archidekt.com/decks/` followed by digits for `fetch_archidekt_deck`;
`moxfield.com/decks/` followed by an identifier for `fetch_moxfield_deck`),
the fetcher returns the structured invalid-URL error with an empty effect
trace — no HTTP call and no rate-limiter acquisition — for every possible
upstream oracle. -/
theorem C8_invalid_url_before_network :
    ∀ (envA : String → Except TransportError ArchResponse)
      (envM : String → Except TransportError MoxResponse) (deck_url : String),
      (archidektDeckId deck_url = none →
        fetch_archidekt_deck envA deck_url = (.invalidUrl, [])) ∧
      (moxfieldDeckId deck_url = none →
        fetch_moxfield_deck envM deck_url = (.invalidUrl, [])) := by
  intro envA envM deck_url
  constructor
  · intro h
    simp [fetch_archidekt_deck, h]
  · intro h
    simp [fetch_moxfield_deck, h]

/-- C8 witness: `https://example.com/decks/123` matches neither pattern, so
both fetchers reject it with no effects, even though their oracles would
answer (with a raised error) if consulted. -/
theorem C8_invalid_url_before_network_witness :
    fetch_archidekt_deck archEnvBoom "https://example.com/decks/123" =
      (.invalidUrl, []) ∧
    fetch_moxfield_deck moxEnvBoom "https://example.com/decks/123" =
      (.invalidUrl, []) :=
  ⟨(C8_invalid_url_before_network archEnvBoom moxEnvBoom
      "https://example.com/decks/123").1 (by decide),
   (C8_invalid_url_before_network archEnvBoom moxEnvBoom
      "https://example.com/decks/123").2 (by decide)⟩

/-- Every entry of every board appears, tagged with its board name, in the
all-boards card list. -/
theorem mem_moxAllCards :
    ∀ (boards : List (String × MoxBoard)) (bn : String) (bd : MoxBoard) (e : MoxEntry),
      (bn, bd) ∈ boards → e ∈ bd.cards → (bn, e) ∈ moxAllCards boards := by
  intro boards
  induction boards with
  | nil => intro bn bd e hmem; simp at hmem
  | cons p rest ih =>
    intro bn bd e hmem he
    rcases List.mem_cons.mp hmem with heq | hmem'
    · subst heq
      simp only [moxAllCards, List.mem_append]
      left
      exact List.mem_map.mpr ⟨e, he, rfl⟩
    · simp only [moxAllCards, List.mem_append]
      right
      exact ih bn bd e hmem' he

/-- `dictSetNat` puts the assigned pair in the map. -/
theorem dictSetNat_self_mem : ∀ (d : List (String × Nat)) (k : String) (v : Nat),
    (k, v) ∈ dictSetNat d k v := by
  intro d k v
  induction d with
  | nil => simp [dictSetNat]
  | cons p rest ih =>
    by_cases h : p.1 == k
    · simp [dictSetNat, h]
    · simp only [dictSetNat]
      rw [if_neg (by simpa using h)]
      exact List.mem_cons_of_mem p ih

/-- `dictSetNat` preserves the presence of every key. -/
theorem dictSetNat_key_preserved :
    ∀ (d : List (String × Nat)) (k2 : String) (v2 : Nat) (k : String),
      (∃ n, (k, n) ∈ d) → ∃ n, (k, n) ∈ dictSetNat d k2 v2 := by
  intro d k2 v2 k h
  by_cases hk : k = k2
  · subst hk
    exact ⟨v2, dictSetNat_self_mem d k v2⟩
  · obtain ⟨n, hn⟩ := h
    refine ⟨n, ?_⟩
    induction d with
    | nil => simp at hn
    | cons p rest ih =>
      rcases List.mem_cons.mp hn with heq | hmem
      · subst heq
        simp only [dictSetNat]
        rw [if_neg (by simp [hk])]
        exact List.mem_cons_self _ _
      · by_cases hpk : p.1 == k2
        · simp only [dictSetNat]
          rw [if_pos hpk]
          exact List.mem_cons_of_mem _ hmem
        · simp only [dictSetNat]
          rw [if_neg (by simpa using hpk)]
          exact List.mem_cons_of_mem _ (ih hmem)

/-- Every board name of the response gets an entry in the folded board
counts. -/
theorem moxBoardCounts_key :
    ∀ (boards : List (String × MoxBoard)) (d : List (String × Nat)) (k : String),
      ((∃ n, (k, n) ∈ d) ∨ ∃ bd, (k, bd) ∈ boards) →
      ∃ n, (k, n) ∈ boards.foldl (fun d p => dictSetNat d p.1 p.2.count) d := by
  intro boards
  induction boards with
  | nil =>
    intro d k h
    rcases h with h | ⟨bd, hbd⟩
    · simpa using h
    · simp at hbd
  | cons p rest ih =>
    intro d k h
    simp only [List.foldl_cons]
    apply ih
    rcases h with hd | ⟨bd, hmem⟩
    · exact Or.inl (dictSetNat_key_preserved d p.1 p.2.count k hd)
    · rcases List.mem_cons.mp hmem with heq | h'
      · have hp : p.1 = k := by rw [← heq]
        left
        refine ⟨p.2.count, ?_⟩
        rw [← hp]
        exact dictSetNat_self_mem d p.1 p.2.count
      · exact Or.inr ⟨bd, h'⟩

/-- C10: on `fetch_moxfield_deck`'s success path, `total_cards` is the sum of
the `mainboard`, `sideboard` and `commanders` board counts only — the
`maybeboard` count contributes nothing to it — while the maybeboard is still
fully represented elsewhere in the result: `maybeboard_count` is its
`board_counts` entry, every board of the response (the maybeboard included)
has a `board_counts` entry, and every card entry of every board (the
maybeboard's included) appears, tagged with its board name, in the returned
`cards` list. -/
theorem C10_moxfield_total_excludes_maybeboard :
    ∀ (env : String → Except TransportError MoxResponse) (deck_url deck_id : String)
      (resp : MoxResponse) (dn : String) (cs : List String)
      (cards : List (String × MoxEntry)) (bc : List (String × Nat))
      (m s mb cc t : Nat) (tr : List Effect),
      moxfieldDeckId deck_url = some deck_id →
      env (moxApiUrl deck_id) = .ok resp →
      resp.status = 200 →
      fetch_moxfield_deck env deck_url = (.ok dn cs cards bc m s mb cc t, tr) →
      t = m + s + cc ∧
      m = lookupNat bc "mainboard" ∧
      s = lookupNat bc "sideboard" ∧
      cc = lookupNat bc "commanders" ∧
      mb = lookupNat bc "maybeboard" ∧
      (∀ (bn : String) (bd : MoxBoard), (bn, bd) ∈ resp.boards →
        (∀ e ∈ bd.cards, (bn, e) ∈ cards) ∧ ∃ n, (bn, n) ∈ bc) := by
  intro env deck_url deck_id resp dn cs cards bc m s mb cc t tr hid henv h200 hrun
  rw [fetch_moxfield_deck, hid] at hrun
  dsimp only at hrun
  rw [henv] at hrun
  dsimp only at hrun
  rw [if_neg (by simp [h200]), if_neg (by simp [h200])] at hrun
  simp only [Prod.mk.injEq, MoxResult.ok.injEq] at hrun
  obtain ⟨⟨hdn, hcs, hcards, hbc, hm, hs, hmb, hcc, ht⟩, htr⟩ := hrun
  subst hbc
  refine ⟨?_, hm.symm ▸ ?_, hs.symm ▸ ?_, hcc.symm ▸ ?_, hmb.symm ▸ ?_, ?_⟩
  · rw [← ht, ← hm, ← hs, ← hcc]
  · rfl
  · rfl
  · rfl
  · rfl
  · intro bn bd hmem
    constructor
    · intro e he
      rw [← hcards]
      exact mem_moxAllCards resp.boards bn bd e hmem he
    · exact moxBoardCounts_key resp.boards [] bn (Or.inr ⟨bd, hmem⟩)

/-- C10 witness: a concrete four-board deck (mainboard 2, sideboard 1,
maybeboard 3, commanders 1) yields `total_cards = 2 + 1 + 1 = 4`, excluding
the maybeboard's 3, which still appears in `board_counts`, in
`maybeboard_count` and among the returned cards. -/
theorem C10_moxfield_total_excludes_maybeboard_witness :
    (4 : Nat) = 2 + 1 + 1 ∧
    (2 : Nat) = lookupNat [("mainboard", 2), ("sideboard", 1), ("maybeboard", 3),
      ("commanders", 1)] "mainboard" ∧
    (1 : Nat) = lookupNat [("mainboard", 2), ("sideboard", 1), ("maybeboard", 3),
      ("commanders", 1)] "sideboard" ∧
    (1 : Nat) = lookupNat [("mainboard", 2), ("sideboard", 1), ("maybeboard", 3),
      ("commanders", 1)] "commanders" ∧
    (3 : Nat) = lookupNat [("mainboard", 2), ("sideboard", 1), ("maybeboard", 3),
      ("commanders", 1)] "maybeboard" ∧
    (∀ (bn : String) (bd : MoxBoard), (bn, bd) ∈ moxRespEx.boards →
      (∀ e ∈ bd.cards, (bn, e) ∈
        [("mainboard", ({ quantity := 2, name := "Island" } : MoxEntry)),
         ("sideboard", { quantity := 1, name := "Negate" }),
         ("maybeboard", { quantity := 3, name := "Opt" }),
         ("commanders", { quantity := 1, name := "Talrand, Sky Summoner" })]) ∧
      ∃ n, (bn, n) ∈ [("mainboard", 2), ("sideboard", 1), ("maybeboard", 3),
        ("commanders", 1)]) :=
  C10_moxfield_total_excludes_maybeboard moxEnvEx
    "https://moxfield.com/decks/abc123" "abc123" moxRespEx "Test Deck"
    ["Talrand, Sky Summoner"]
    [("mainboard", { quantity := 2, name := "Island" }),
     ("sideboard", { quantity := 1, name := "Negate" }),
     ("maybeboard", { quantity := 3, name := "Opt" }),
     ("commanders", { quantity := 1, name := "Talrand, Sky Summoner" })]
    [("mainboard", 2), ("sideboard", 1), ("maybeboard", 3), ("commanders", 1)]
    2 1 3 1 4
    [Effect.rateLimit "moxfield", Effect.httpGet (moxApiUrl "abc123")]
    (by decide) rfl rfl (by decide)

unseal String.splitOnAux Substring.takeWhileAux Substring.takeRightWhileAux in
/-- C9 counterexample: `fetch_and_parse_rules` never checks the HTTP status
— a 404 response whose body is `"Not Found"` is parsed like rules text and
returned as the success-shaped dictionary with NO `"error"` field,
contradicting the claim that an upstream not-found or non-2xx status always
produces an error payload for every listed leaf client. -/
theorem C9_counterexample_rules_status_ignored :
    rulesHasError (fetch_and_parse_rules
      (.ok { status := 404, body := "Not Found" })) = false ∧
    fetch_and_parse_rules (.ok { status := 404, body := "Not Found" }) =
      .ok "2025-09-19" [] := by
  exact ⟨rfl, rfl⟩

/-- C9 (amended): every leaf client returns a result dictionary on every
execution path of the model (the embeddings are total functions: raised
transport errors and upstream statuses are all mapped to returned payloads,
never propagated), and the returned payload lacks an `"error"` key exactly
on the path characterised here per client by its upstream oracle.  For six
of the seven clients that path is genuine success: the fetch returned (did
not raise) with status 200 (plus, for the rulings chain, a present card id
and a successful second fetch; for the deck importers, a pattern-matching
URL; for the banned-cards fetcher, a full status-200 page chain).  The
exception is `fetch_and_parse_rules`: it never inspects the HTTP status, so
its payload lacks an `"error"` field whenever the GET delivered any response
at all — 404 and other non-2xx bodies included — and carries one only on a
raised transport error.  Per-entry enrichment failures inside the
game-changers builder do not make the result an error payload. -/
theorem C9_error_payloads_iff_success :
    (∀ (resp : Except String RulesResponse),
        rulesHasError (fetch_and_parse_rules resp) = false ↔
          ∃ r, resp = .ok r) ∧
    (∀ (pages : String → Except String BannedPage) (fuel : Nat)
        (r : BannedOutcome) (tr : List Effect),
        fetch_banned_cards pages fuel = some (r, tr) →
        (bannedHasError r = false ↔
          ∃ names details total, r = .ok names details total ∧
            ∃ urls datas, FollowsChain pages bannedSearchUrl urls datas)) ∧
    (∀ (env : Except String CombosResponse) (name : String),
        combosHasError (search_combos env name).1 = false ↔
          ∃ resp, env = .ok resp ∧ resp.status = 200) ∧
    (∀ (env1 : Except String NamedCardResponse)
        (env2 : String → Except String RulingsResponse) (name : String),
        rulingsHasError (search_rulings env1 env2 name).1 = false ↔
          ∃ card, env1 = .ok card ∧ card.status = 200 ∧
            ∃ cid, card.id = some cid ∧
              ∃ rresp, env2 cid = .ok rresp ∧ rresp.status = 200) ∧
    (∀ (env : Except String GCResponse) (scry : String → Except String GCScryResponse),
        gcHasError (fetch_game_changers env scry).1 = false ↔
          ∃ resp, env = .ok resp ∧ resp.status = 200) ∧
    (∀ (env : String → Except TransportError ArchResponse) (deck_url : String),
        archHasError (fetch_archidekt_deck env deck_url).1 = false ↔
          ∃ deck_id, archidektDeckId deck_url = some deck_id ∧
            ∃ resp, env (archApiUrl deck_id) = .ok resp ∧ resp.status = 200) ∧
    (∀ (env : String → Except TransportError MoxResponse) (deck_url : String),
        moxHasError (fetch_moxfield_deck env deck_url).1 = false ↔
          ∃ deck_id, moxfieldDeckId deck_url = some deck_id ∧
            ∃ resp, env (moxApiUrl deck_id) = .ok resp ∧ resp.status = 200) := by
  refine ⟨?_, ?_, ?_, ?_, ?_, ?_, ?_⟩
  · intro resp
    cases resp with
    | error e => simp [fetch_and_parse_rules, rulesHasError]
    | ok r => simp [fetch_and_parse_rules, rulesHasError]
  · intro pages fuel r tr hrun
    cases r with
    | ok names details total =>
      obtain ⟨urls, datas, hchain, _⟩ :=
        fetchBannedLoop_ok pages fuel bannedSearchUrl [] [] tr names details total hrun
      simp only [bannedHasError, true_iff]
      exact ⟨names, details, total, rfl, urls, datas, hchain⟩
    | statusError st =>
      simp [bannedHasError]
    | exceptionError e =>
      simp [bannedHasError]
  · intro env name
    cases env with
    | error e => simp [search_combos, combosHasError]
    | ok resp =>
      by_cases h : resp.status = 200
      · simp only [search_combos, h]
        simp [combosHasError, h]
      · simp only [search_combos]
        rw [if_pos (by simp [h])]
        simp [combosHasError, h]
  · intro env1 env2 name
    cases env1 with
    | error e => simp [search_rulings, rulingsHasError]
    | ok card =>
      by_cases h1 : card.status = 200
      · simp only [search_rulings]
        rw [if_neg (by simp [h1])]
        cases hid : card.id with
        | none => simp [rulingsHasError, h1, hid]
        | some cid =>
          dsimp only
          cases h2 : env2 cid with
          | error e => simp [rulingsHasError, h1, hid, h2]
          | ok rresp =>
            by_cases h3 : rresp.status = 200
            · dsimp only
              rw [if_neg (by simp [h3])]
              simp [rulingsHasError, h1, hid, h2, h3]
            · dsimp only
              rw [if_pos (by simp [h3])]
              simp [rulingsHasError, h1, hid, h2, h3]
      · simp only [search_rulings]
        rw [if_pos (by simp [h1])]
        simp [rulingsHasError, h1]
  · intro env scry
    cases env with
    | error e => simp [fetch_game_changers, gcHasError]
    | ok resp =>
      by_cases h : resp.status = 200
      · simp only [fetch_game_changers]
        rw [if_neg (by simp [h])]
        simp [gcHasError, h]
      · simp only [fetch_game_changers]
        rw [if_pos (by simp [h])]
        simp [gcHasError, h]
  · intro env deck_url
    cases hid : archidektDeckId deck_url with
    | none => simp [fetch_archidekt_deck, hid, archHasError]
    | some deck_id =>
      simp only [fetch_archidekt_deck, hid]
      cases henv : env (archApiUrl deck_id) with
      | error e =>
        cases e with
        | clientError d => simp [henv, archHasError, hid]
        | otherError d => simp [henv, archHasError, hid]
      | ok resp =>
        by_cases h404 : resp.status = 404
        · dsimp only
          rw [if_pos h404]
          simp [archHasError, hid, henv, h404]
        · by_cases h200 : resp.status = 200
          · dsimp only
            rw [if_neg h404, if_neg (by simp [h200])]
            simp [archHasError, hid, henv, h200]
          · dsimp only
            rw [if_neg h404, if_pos (by simp [h200])]
            simp [archHasError, hid, henv, h200]
  · intro env deck_url
    cases hid : moxfieldDeckId deck_url with
    | none => simp [fetch_moxfield_deck, hid, moxHasError]
    | some deck_id =>
      simp only [fetch_moxfield_deck, hid]
      cases henv : env (moxApiUrl deck_id) with
      | error e =>
        cases e with
        | clientError d => simp [henv, moxHasError, hid]
        | otherError d => simp [henv, moxHasError, hid]
      | ok resp =>
        by_cases h404 : resp.status = 404
        · dsimp only
          rw [if_pos h404]
          simp [moxHasError, hid, henv, h404]
        · by_cases h200 : resp.status = 200
          · dsimp only
            rw [if_neg h404, if_neg (by simp [h200])]
            simp [moxHasError, hid, henv, h200]
          · dsimp only
            rw [if_neg h404, if_pos (by simp [h200])]
            simp [moxHasError, hid, henv, h200]

/-- C9 witness: instantiating the amended theorem's banned-cards conjunct at
a concrete status-500 run, whose hypothesis is discharged by evaluation: the
equivalence places that run's error payload (`"error"` key present) on the
error side. -/
theorem C9_error_payloads_iff_success_witness :
    bannedHasError (BannedOutcome.statusError 500) = false ↔
      ∃ names details total,
        (BannedOutcome.statusError 500) = .ok names details total ∧
          ∃ urls datas, FollowsChain pagesStatus500 bannedSearchUrl urls datas :=
  C9_error_payloads_iff_success.2.1 pagesStatus500 1 (.statusError 500)
    [Effect.rateLimit "scryfall", Effect.httpGet bannedSearchUrl] (by decide)
